import Mathlib

/-!
Verification of `codeintel-dead-code-finder` (src/main.py).

The program is process-orchestration glue: it validates a target directory
and a list of requested analysis tools, runs each selected tool as a child
process (flake8, pylint, pyre-check), captures the standard output of each tool,
and concatenates the results under labeled headers, delivering the combined
report to a file or to standard output.

The embedding below models the host as an explicit oracle (`Env`): a
directory test, a temporary-directory name, a child-process executor mapping
an invocation to its outcome, and a write-success predicate for the output
file.  `main` then becomes a pure function from `Env` and parsed arguments
to an observable `RunResult`: exit code, the list of child-process
invocations attempted (in order), the collected per-tool results, the
rendered report, and the delivery performed.
-/

namespace DeadCode

/-- One child-process invocation: the argument vector, the optional working
directory passed to the process call, and the optional temporary
configuration file (path and contents) written before launching. -/
structure Invocation where
  argv : List String
  cwd : Option String
  config : Option (String × String)
deriving DecidableEq

/-- Outcome of launching a child process: the launch can raise
`FileNotFoundError` (binary missing), raise any other host error, or
complete with an exit code, captured standard output and standard error. -/
inductive ExecOutcome where
  | fileNotFound
  | otherError
  | completed (exitCode : Int) (stdout : String) (stderr : String)
deriving DecidableEq

/-- The host environment a run executes against. -/
structure Env where
  isDir : String → Bool
  tempDir : String
  run : Invocation → ExecOutcome
  writeOk : String → Bool

/-- Command-line arguments after parsing, defaults already applied
(`setup_argparse` in src/main.py). -/
structure Args where
  project_path : String
  dependencies : List String
  output_file : Option String
  ignore : List String

/-- Model of the Python join: `sep.join(l)`. -/
def join_str (sep : String) : List String → String
  | [] => ""
  | [x] => x
  | x :: y :: ys => x ++ sep ++ join_str sep (y :: ys)

/-- Argument vector built by `run_flake8`: `["flake8", project_path]`, and
`--exclude` with the comma-joined exclusions when the list is non-empty. -/
def flake8_command (project_path : String) (ignore : List String) : List String :=
  if ignore.isEmpty then ["flake8", project_path]
  else ["flake8", project_path, "--exclude", join_str "," ignore]

/-- Argument vector built by `run_pylint`: `["pylint", project_path]`, and
`--ignore` with the comma-joined exclusions when the list is non-empty. -/
def pylint_command (project_path : String) (ignore : List String) : List String :=
  if ignore.isEmpty then ["pylint", project_path]
  else ["pylint", project_path, "--ignore", join_str "," ignore]

/-- Contents of the generated `.pyre_configuration.local` file, exactly the
f-string written by `run_pyre`: plain interpolation of the quoted ignore
entries and of the project path into a fixed template. -/
def pyre_config_text (project_path : String) (ignore : List String) : String :=
  "\x7b\n  \"ignore\": [" ++
    join_str ", " (ignore.map (fun x => "\"" ++ x ++ "\"")) ++
    "],\n  \"typeshed\": null,\n  \"use_buck\": false,\n  \"source_directories\": [\"" ++
    project_path ++ "\"]\n\x7d"

/-- Model of `os.path.join(temp_dir, ".pyre_configuration.local")`. -/
def pyre_config_path (env : Env) : String :=
  env.tempDir ++ "/.pyre_configuration.local"

/-- Argument vector built by `run_pyre`. -/
def pyre_command (project_path config_path : String) : List String :=
  ["pyre", "check", "--source-directory", project_path, "--configuration", config_path]

/-- The flake8 invocation: no working directory, no config file. -/
def flake8_invocation (pp : String) (ig : List String) : Invocation :=
  ⟨flake8_command pp ig, none, none⟩

/-- The pylint invocation: no working directory, no config file. -/
def pylint_invocation (pp : String) (ig : List String) : Invocation :=
  ⟨pylint_command pp ig, none, none⟩

/-- The pyre invocation: run with `cwd=project_path`, after writing the
generated configuration file into the temporary directory. -/
def pyre_invocation (env : Env) (pp : String) (ig : List String) : Invocation :=
  ⟨pyre_command pp (pyre_config_path env), some pp,
   some (pyre_config_path env, pyre_config_text pp ig)⟩

/-- What each `run_*` function returns: the captured standard output of a
completed process (whatever its exit code), and the empty string when the
launch raised (`except FileNotFoundError` / `except Exception`). -/
def capture : ExecOutcome → String
  | .completed _ out _ => out
  | .fileNotFound => ""
  | .otherError => ""

/-- Model of `run_flake8` from src/main.py. -/
def run_flake8 (env : Env) (pp : String) (ig : List String) : String :=
  capture (env.run (flake8_invocation pp ig))

/-- Model of `run_pylint` from src/main.py. -/
def run_pylint (env : Env) (pp : String) (ig : List String) : String :=
  capture (env.run (pylint_invocation pp ig))

/-- Model of `run_pyre` from src/main.py. -/
def run_pyre (env : Env) (pp : String) (ig : List String) : String :=
  capture (env.run (pyre_invocation env pp ig))

/-- Python `str.upper` restricted to the ASCII tool names used here. -/
def upper (s : String) : String := ⟨s.data.map Char.toUpper⟩

/-- The aggregation loop of `main`: starting from the empty string, append
one `--- NAME ---\n<output>\n\n` section per collected result, in order. -/
def render_report (results : List (String × String)) : String :=
  results.foldl (fun acc p => acc ++ ("--- " ++ upper p.1 ++ " ---\n" ++ p.2 ++ "\n\n")) ""

/-- The `valid_dependencies` list from `main`. -/
def valid_dependencies : List String := ["flake8", "pylint", "pyre-check"]

/-- Where and how the report left the program. -/
inductive Delivery where
  | stdout (text : String)
  | file (path : String) (ok : Bool) (text : String)
deriving DecidableEq

/-- Observable outcome of one run of `main`. -/
structure RunResult where
  exitCode : Nat
  invocations : List Invocation
  results : List (String × String)
  report : Option String
  delivered : Option Delivery
deriving DecidableEq

/-- Model of `main` from src/main.py: validate, dispatch the three tools guarded by
membership tests in canonical order, aggregate, deliver.  `results` models
the Python dict in insertion order. -/
def main (env : Env) (args : Args) : RunResult :=
  if env.isDir args.project_path = false then
    ⟨1, [], [], none, none⟩
  else if args.dependencies.any (fun d => !(valid_dependencies.contains d)) then
    ⟨1, [], [], none, none⟩
  else
    let pp := args.project_path
    let ig := args.ignore
    let results :=
      (if args.dependencies.contains "flake8" then
        [("flake8", run_flake8 env pp ig)] else []) ++
      (if args.dependencies.contains "pylint" then
        [("pylint", run_pylint env pp ig)] else []) ++
      (if args.dependencies.contains "pyre-check" then
        [("pyre-check", run_pyre env pp ig)] else [])
    let invocations :=
      (if args.dependencies.contains "flake8" then
        [flake8_invocation pp ig] else []) ++
      (if args.dependencies.contains "pylint" then
        [pylint_invocation pp ig] else []) ++
      (if args.dependencies.contains "pyre-check" then
        [pyre_invocation env pp ig] else [])
    let output := render_report results
    let delivered :=
      match args.output_file with
      | some p =>
        if p = "" then Delivery.stdout output
        else Delivery.file p (env.writeOk p) output
      | none => Delivery.stdout output
    ⟨0, invocations, results, some output, some delivered⟩

/-- The tools that actually run: the canonical list filtered to the
requested ones. -/
def selected (deps : List String) : List String :=
  valid_dependencies.filter (fun t => deps.contains t)

/-- The invocation `main` issues for a given tool name. -/
def tool_invocation (env : Env) (t pp : String) (ig : List String) : Invocation :=
  if t = "flake8" then flake8_invocation pp ig
  else if t = "pylint" then pylint_invocation pp ig
  else pyre_invocation env pp ig

/-- The result `main` collects for a given tool name. -/
def run_tool (env : Env) (t pp : String) (ig : List String) : String :=
  capture (env.run (tool_invocation env t pp ig))

/-- The delivery `main` performs for a given report.  The dispatch mirrors
the Python truthiness test at main.py line 169: an absent output_file and
an empty-string output_file are both falsy, so both send the report to
standard output; only a non-empty path is written as a file. -/
def delivery_of (env : Env) (dest : Option String) (output : String) : Delivery :=
  match dest with
  | some p =>
    if p = "" then Delivery.stdout output
    else Delivery.file p (env.writeOk p) output
  | none => Delivery.stdout output

/-- One labeled report section, exactly as the aggregation loop formats it:
`--- NAME ---`, newline, the captured output, newline, blank line. -/
def section_text (p : String × String) : String :=
  "--- " ++ upper p.1 ++ " ---\n" ++ p.2 ++ "\n\n"

/-- Plain concatenation of a list of strings. -/
def join_all : List String → String
  | [] => ""
  | x :: xs => x ++ join_all xs

/-- Spec 4.2: the four configuration fields in order, rendered — `ignore`
holds each exclusion entry individually quoted (an empty exclusion list
renders as the empty list literal), `typeshed` is null, `use_buck` is
false, `source_directories` holds only the target path. -/
def spec_config_fields (pp : String) (ig : List String) : List (String × String) :=
  [("ignore", "[" ++ join_str ", " (ig.map (fun x => "\"" ++ x ++ "\"")) ++ "]"),
   ("typeshed", "null"),
   ("use_buck", "false"),
   ("source_directories", "[\"" ++ pp ++ "\"]")]

/-- Render a structured configuration object as a two-space-indented
key/value document. -/
def spec_render_config (fields : List (String × String)) : String :=
  "\x7b\n" ++
    join_str ",\n" (fields.map (fun f => "  \"" ++ f.1 ++ "\": " ++ f.2)) ++
    "\n\x7d"

/-- Host where the target path is not an existing directory. -/
def stubDirMissing : Env :=
  ⟨fun _ => false, "/tmp/t", fun _ => .fileNotFound, fun _ => true⟩

/-- Host where every tool completes with exit code 2 and output `ok\n`. -/
def stubOk : Env :=
  ⟨fun _ => true, "/tmp/t", fun _ => .completed 2 "ok\n" "warn\n", fun _ => true⟩

/-- Host where the flake8 binary is missing and every other tool completes
normally. -/
def stubFlakeMissing : Env :=
  ⟨fun _ => true, "/tmp/t",
   fun inv => if inv.argv.head? = some "flake8" then .fileNotFound
              else .completed 0 "ok\n" "",
   fun _ => true⟩

/-- Host where every tool completes but writing the output file fails. -/
def stubWriteFail : Env :=
  ⟨fun _ => true, "/tmp/t", fun _ => .completed 0 "ok\n" "", fun _ => false⟩

/-- Arguments selecting pyre-check and flake8, in non-canonical order. -/
def argsValidAll : Args := ⟨"/proj", ["pyre-check", "flake8"], none, []⟩

/-- Arguments selecting flake8 then pylint. -/
def argsFlakePylint : Args := ⟨"/proj", ["flake8", "pylint"], none, []⟩

/-- Arguments selecting flake8 with an output file. -/
def argsOut : Args := ⟨"/proj", ["flake8"], some "/out.txt", []⟩

/-- Arguments with an empty tool selection. -/
def argsEmptyDeps : Args := ⟨"/proj", [], none, []⟩

/-- Whitespace accepted between JSON tokens. -/
def isWs (c : Char) : Bool :=
  c = ' ' || c = '\n' || c = '\t' || c = '\r'

/-- Drop leading whitespace. -/
def skipWs : List Char → List Char
  | [] => []
  | c :: cs => if isWs c then skipWs cs else c :: cs

/-- Hexadecimal digit. -/
def isHex (c : Char) : Bool :=
  c.isDigit || ('a' ≤ c && c ≤ 'f') || ('A' ≤ c && c ≤ 'F')

/-- The single-character escapes JSON allows after a backslash. -/
def isSimpleEsc (c : Char) : Bool :=
  c = '"' || c = '\\' || c = '/' || c = 'b' || c = 'f' || c = 'n' || c = 'r' || c = 't'

mutual

/-- Consume the body of a JSON string after its opening quote, returning
the input after the closing quote.  Unescaped control characters, stray
backslashes and a missing closing quote are rejected, as the JSON grammar
requires. -/
def parseStrBody : List Char → Option (List Char)
  | [] => none
  | c :: cs =>
    if c = '"' then some cs
    else if c = '\\' then parseEsc cs
    else if c.toNat < 32 then none
    else parseStrBody cs

/-- Consume one escape sequence after a backslash, then the rest of the
string body. -/
def parseEsc : List Char → Option (List Char)
  | [] => none
  | e :: cs =>
    if e = 'u' then
      match cs with
      | a :: b :: c :: d :: cs2 =>
        if isHex a && isHex b && isHex c && isHex d then parseStrBody cs2 else none
      | _ => none
    else if isSimpleEsc e then parseStrBody cs
    else none

end

/-- Consume leading decimal digits, returning how many were consumed and
the rest of the input. -/
def takeDigits : List Char → Nat × List Char
  | [] => (0, [])
  | c :: cs =>
    if c.isDigit then
      let p := takeDigits cs
      (p.1 + 1, p.2)
    else (0, c :: cs)

/-- Optional fraction and exponent of a JSON number. -/
def parseFracExp (s : List Char) : Option (List Char) :=
  let s1 :=
    match s with
    | '.' :: cs =>
      match takeDigits cs with
      | (0, _) => none
      | (_ + 1, r) => some r
    | _ => some s
  match s1 with
  | none => none
  | some r =>
    match r with
    | e :: cs =>
      if e = 'e' || e = 'E' then
        let cs2 :=
          match cs with
          | '+' :: t => t
          | '-' :: t => t
          | _ => cs
        match takeDigits cs2 with
        | (0, _) => none
        | (_ + 1, t) => some t
      else some (e :: cs)
    | [] => some []

/-- A JSON number, starting at its first character. -/
def parseNumber (s : List Char) : Option (List Char) :=
  let s1 :=
    match s with
    | '-' :: cs => cs
    | _ => s
  match s1 with
  | '0' :: cs => parseFracExp cs
  | c :: cs => if c.isDigit then parseFracExp (takeDigits cs).2 else none
  | [] => none

mutual

/-- One JSON value; `fuel` bounds the bracket-nesting and element count
and decreases on every nested call. -/
def parseValue : Nat → List Char → Option (List Char)
  | 0, _ => none
  | fuel + 1, s =>
    match skipWs s with
    | [] => none
    | c :: cs =>
      if c = '"' then parseStrBody cs
      else if c = '\x7b' then parseObjectBody fuel cs
      else if c = '[' then parseArray fuel cs
      else if c = '-' || c.isDigit then parseNumber (c :: cs)
      else
        match c :: cs with
        | 't' :: 'r' :: 'u' :: 'e' :: cs2 => some cs2
        | 'f' :: 'a' :: 'l' :: 's' :: 'e' :: cs2 => some cs2
        | 'n' :: 'u' :: 'l' :: 'l' :: cs2 => some cs2
        | _ => none

/-- A JSON array after its opening bracket. -/
def parseArray : Nat → List Char → Option (List Char)
  | 0, _ => none
  | fuel + 1, s =>
    match skipWs s with
    | [] => none
    | c :: cs =>
      if c = ']' then some cs
      else
        match parseValue fuel (c :: cs) with
        | none => none
        | some r => parseArrayTail fuel r

/-- Further array elements: a comma and a value each, until the bracket
closes. -/
def parseArrayTail : Nat → List Char → Option (List Char)
  | 0, _ => none
  | fuel + 1, s =>
    match skipWs s with
    | [] => none
    | c :: cs =>
      if c = ']' then some cs
      else if c = ',' then
        match parseValue fuel cs with
        | none => none
        | some r => parseArrayTail fuel r
      else none

/-- A JSON object after its opening brace. -/
def parseObjectBody : Nat → List Char → Option (List Char)
  | 0, _ => none
  | fuel + 1, s =>
    match skipWs s with
    | [] => none
    | c :: cs =>
      if c = '\x7d' then some cs
      else if c = '"' then
        match parseStrBody cs with
        | none => none
        | some r =>
          match skipWs r with
          | [] => none
          | d :: cs2 =>
            if d = ':' then
              match parseValue fuel cs2 with
              | none => none
              | some r2 => parseObjectTail fuel r2
            else none
      else none

/-- Further object members: a comma, a key string, a colon and a value
each, until the brace closes. -/
def parseObjectTail : Nat → List Char → Option (List Char)
  | 0, _ => none
  | fuel + 1, s =>
    match skipWs s with
    | [] => none
    | c :: cs =>
      if c = '\x7d' then some cs
      else if c = ',' then
        match skipWs cs with
        | [] => none
        | d :: cs1 =>
          if d = '"' then
            match parseStrBody cs1 with
            | none => none
            | some r =>
              match skipWs r with
              | [] => none
              | e :: cs2 =>
                if e = ':' then
                  match parseValue fuel cs2 with
                  | none => none
                  | some r2 => parseObjectTail fuel r2
                else none
          else none
      else none

end

/-- All characters are whitespace. -/
def onlyWs (s : List Char) : Bool := s.all isWs

/-- A string is a syntactically well-formed JSON document: one value
followed by nothing but whitespace.  Fuel `s.length + 1` is enough for
every document, since each fueled call consumes at least one character. -/
def jsonWF (s : String) : Bool :=
  match parseValue (s.length + 1) s.data with
  | some r => onlyWs r
  | none => false

/-- A character that can sit verbatim inside a JSON string literal: not a
double quote, not a backslash, not a control character. -/
def goodChar (c : Char) : Bool :=
  !(c = '"') && !(c = '\\') && !(c.toNat < 32)

/-- A character that is neither a double quote nor a backslash — the two
characters named by the claim. -/
def noQuoteBackslash (c : Char) : Bool :=
  !(c = '"') && !(c = '\\')

/-- One quoted ignore entry at character level. -/
def quotedChars (x : String) : List Char := '"' :: x.data ++ ['"']

/-- The separated continuation of the rendered ignore-list join: `, "y"`
for each further entry. -/
def sepChars : List String → List Char
  | [] => []
  | x :: xs => ',' :: ' ' :: quotedChars x ++ sepChars xs

/-- The rendered join of the quoted ignore entries, at character level. -/
def joinChars : List String → List Char
  | [] => []
  | x :: xs => quotedChars x ++ sepChars xs

def srcVal (pp : String) : List Char :=
  ' ' :: '[' :: '"' :: (pp.data ++ '"' :: ']' :: '\n' :: '\x7d' :: [])

def mem3 (pp : String) : List Char :=
  ',' :: '\n' :: ' ' :: ' ' :: '"' ::
    (['s', 'o', 'u', 'r', 'c', 'e', '_', 'd', 'i', 'r', 'e', 'c', 't', 'o', 'r', 'i', 'e', 's'] ++
      '"' :: ':' :: srcVal pp)

def mem2 (pp : String) : List Char :=
  ',' :: '\n' :: ' ' :: ' ' :: '"' ::
    (['u', 's', 'e', '_', 'b', 'u', 'c', 'k'] ++
      '"' :: ':' :: (' ' :: 'f' :: 'a' :: 'l' :: 's' :: 'e' :: mem3 pp))

def mem1 (pp : String) : List Char :=
  ',' :: '\n' :: ' ' :: ' ' :: '"' ::
    (['t', 'y', 'p', 'e', 's', 'h', 'e', 'd'] ++
      '"' :: ':' :: (' ' :: 'n' :: 'u' :: 'l' :: 'l' :: mem2 pp))

def objBody (pp : String) (ig : List String) : List Char :=
  '\n' :: ' ' :: ' ' :: '"' ::
    (['i', 'g', 'n', 'o', 'r', 'e'] ++
      '"' :: ':' :: (' ' :: '[' :: (joinChars ig ++ ']' :: mem1 pp)))

theorem str_ext (a b : String) (h : a.data = b.data) : a = b := by
  cases a; cases b; exact congrArg String.mk h

theorem data_app (a b : String) : (a ++ b).data = a.data ++ b.data := rfl

theorem main_valid_run (env : Env) (args : Args)
    (h1 : env.isDir args.project_path = true)
    (h2 : args.dependencies.all (fun d => valid_dependencies.contains d) = true) :
    main env args =
      ⟨0,
       (selected args.dependencies).map
         (fun t => tool_invocation env t args.project_path args.ignore),
       (selected args.dependencies).map
         (fun t => (t, run_tool env t args.project_path args.ignore)),
       some (render_report ((selected args.dependencies).map
         (fun t => (t, run_tool env t args.project_path args.ignore)))),
       some (delivery_of env args.output_file
         (render_report ((selected args.dependencies).map
           (fun t => (t, run_tool env t args.project_path args.ignore)))))⟩ := by
  have hall : ∀ x ∈ args.dependencies, valid_dependencies.contains x = true :=
    List.all_eq_true.mp h2
  have hmem : ∀ x ∈ args.dependencies, x ∈ valid_dependencies := by
    intro x hx
    have hc := hall x hx
    simpa [List.contains, List.elem_eq_mem] using hc
  have hany : args.dependencies.any (fun d => !(valid_dependencies.contains d)) = false := by
    rw [List.any_eq_false]
    intro x hx
    simp [List.contains, List.elem_eq_mem, hmem x hx]
  have h3 : ∀ x ∈ args.dependencies,
      x = "flake8" ∨ x = "pylint" ∨ x = "pyre-check" := by
    intro x hx
    have hc := hmem x hx
    simpa [valid_dependencies] using hc
  have h4 : ∀ x ∈ args.dependencies,
      ¬x = "flake8" → ¬x = "pylint" → x = "pyre-check" :=
    fun x hx hn1 hn2 => ((h3 x hx).resolve_left hn1).resolve_left hn2
  by_cases hf : "flake8" ∈ args.dependencies <;>
    by_cases hpl : "pylint" ∈ args.dependencies <;>
      by_cases hpy : "pyre-check" ∈ args.dependencies <;>
        (simp [main, h1, hany, selected, valid_dependencies, List.filter,
          hf, hpl, hpy, List.contains, List.elem_eq_mem, tool_invocation,
          run_tool, run_flake8, run_pylint, run_pyre, delivery_of]
         try exact h4)

/-- C1: if the target path is not an existing directory or any requested
tool identifier is outside `valid_dependencies`, the run terminates with
exit status 1 before any tool is invoked: zero invocations, no report. -/
theorem C1_invalid_input_stops_run (env : Env) (args : Args)
    (h : env.isDir args.project_path = false ∨
         ∃ d ∈ args.dependencies, d ∉ valid_dependencies) :
    (main env args).exitCode = 1 ∧ (main env args).invocations = [] ∧
    (main env args).report = none := by
  rcases h with h | ⟨d, hd, hnv⟩
  · simp [main, h]
  · have hex : ∃ x ∈ args.dependencies, x ∉ valid_dependencies := ⟨d, hd, hnv⟩
    by_cases hdir : env.isDir args.project_path = false <;>
      simp [main, hdir, hex, List.contains, List.elem_eq_mem]

theorem C1_witness :
    (main stubDirMissing argsValidAll).exitCode = 1 ∧
    (main stubDirMissing argsValidAll).invocations = [] ∧
    (main stubDirMissing argsValidAll).report = none :=
  C1_invalid_input_stops_run stubDirMissing argsValidAll (Or.inl rfl)

/-- C2: for a valid non-empty selection, the collected results carry
exactly one entry per selected tool, in the canonical order
flake8, pylint, pyre-check, with no duplicates, containing exactly the
requested tools, and the report renders precisely those entries; one
invocation is issued per selected tool. -/
theorem C2_canonical_sections (env : Env) (args : Args)
    (h1 : env.isDir args.project_path = true)
    (h2 : args.dependencies.all (fun d => valid_dependencies.contains d) = true)
    (_h3 : args.dependencies ≠ []) :
    (main env args).results.map Prod.fst = selected args.dependencies ∧
    ((main env args).results.map Prod.fst).Nodup ∧
    (∀ t, t ∈ (main env args).results.map Prod.fst ↔ t ∈ args.dependencies) ∧
    (main env args).report = some (render_report ((main env args).results)) ∧
    (main env args).invocations =
      (selected args.dependencies).map
        (fun t => tool_invocation env t args.project_path args.ignore) := by
  have hmem : ∀ x ∈ args.dependencies, x ∈ valid_dependencies := by
    intro x hx
    have hc := List.all_eq_true.mp h2 x hx
    simpa [List.contains, List.elem_eq_mem] using hc
  rw [main_valid_run env args h1 h2]
  have hfst : ((selected args.dependencies).map
      (fun t => (t, run_tool env t args.project_path args.ignore))).map Prod.fst
      = selected args.dependencies := by
    simp [List.map_map, Function.comp_def]
  refine ⟨hfst, ?_, ?_, rfl, rfl⟩
  · rw [hfst]
    exact List.Nodup.filter _ (by decide)
  · intro t
    rw [hfst]
    simp only [selected, List.mem_filter, List.contains, List.elem_eq_mem,
      decide_eq_true_eq]
    constructor
    · rintro ⟨-, ht⟩; exact ht
    · intro ht; exact ⟨hmem t ht, ht⟩

theorem C2_witness :
    (main stubOk argsValidAll).results.map Prod.fst = selected argsValidAll.dependencies ∧
    ((main stubOk argsValidAll).results.map Prod.fst).Nodup ∧
    (∀ t, t ∈ (main stubOk argsValidAll).results.map Prod.fst ↔
      t ∈ argsValidAll.dependencies) ∧
    (main stubOk argsValidAll).report =
      some (render_report ((main stubOk argsValidAll).results)) ∧
    (main stubOk argsValidAll).invocations =
      (selected argsValidAll.dependencies).map
        (fun t => tool_invocation stubOk t argsValidAll.project_path argsValidAll.ignore) :=
  C2_canonical_sections stubOk argsValidAll rfl (by decide) (by decide)

/-- C3: a selected tool whose launch fails (missing binary or any other
launch error) yields the empty string as its result, its entry still
appears in the collected results with an empty body, and every selected
tool still has its own invocation issued and its own result collected,
independent of the failure. -/
theorem C3_launch_failure_isolated (env : Env) (args : Args) (t : String)
    (h1 : env.isDir args.project_path = true)
    (h2 : args.dependencies.all (fun d => valid_dependencies.contains d) = true)
    (ht : t ∈ selected args.dependencies)
    (hfail : env.run (tool_invocation env t args.project_path args.ignore) = .fileNotFound ∨
             env.run (tool_invocation env t args.project_path args.ignore) = .otherError) :
    run_tool env t args.project_path args.ignore = "" ∧
    (t, "") ∈ (main env args).results ∧
    (main env args).results =
      (selected args.dependencies).map
        (fun u => (u, run_tool env u args.project_path args.ignore)) ∧
    (main env args).invocations =
      (selected args.dependencies).map
        (fun u => tool_invocation env u args.project_path args.ignore) ∧
    (main env args).report = some (render_report ((main env args).results)) := by
  have hres : run_tool env t args.project_path args.ignore = "" := by
    rcases hfail with h | h <;> simp [run_tool, h, capture]
  rw [main_valid_run env args h1 h2]
  refine ⟨hres, ?_, rfl, rfl, rfl⟩
  exact List.mem_map.mpr ⟨t, ht, by rw [hres]⟩

theorem C3_witness :
    run_tool stubFlakeMissing "flake8" argsFlakePylint.project_path argsFlakePylint.ignore = "" ∧
    ("flake8", "") ∈ (main stubFlakeMissing argsFlakePylint).results ∧
    (main stubFlakeMissing argsFlakePylint).results =
      (selected argsFlakePylint.dependencies).map
        (fun u => (u, run_tool stubFlakeMissing u argsFlakePylint.project_path
          argsFlakePylint.ignore)) ∧
    (main stubFlakeMissing argsFlakePylint).invocations =
      (selected argsFlakePylint.dependencies).map
        (fun u => tool_invocation stubFlakeMissing u argsFlakePylint.project_path
          argsFlakePylint.ignore) ∧
    (main stubFlakeMissing argsFlakePylint).report =
      some (render_report ((main stubFlakeMissing argsFlakePylint).results)) :=
  C3_launch_failure_isolated stubFlakeMissing argsFlakePylint "flake8"
    rfl (by decide) (by decide) (Or.inl rfl)

/-- C4: the style-checker command is exactly `[flake8, target]` and the
linter command exactly `[pylint, target]`; exactly when the exclusion list
is non-empty, `--exclude` (flake8) or `--ignore` (pylint) is appended with
the entries comma-joined in the given order and no trailing comma. -/
theorem C4_flake8_pylint_commands (pp a b : String) (xs : List String) :
    flake8_command pp [] = ["flake8", pp] ∧
    pylint_command pp [] = ["pylint", pp] ∧
    flake8_command pp (a :: xs) = ["flake8", pp, "--exclude", join_str "," (a :: xs)] ∧
    pylint_command pp (a :: xs) = ["pylint", pp, "--ignore", join_str "," (a :: xs)] ∧
    join_str "," [a] = a ∧
    join_str "," (a :: b :: xs) = a ++ "," ++ join_str "," (b :: xs) :=
  ⟨rfl, rfl, by simp [flake8_command], by simp [pylint_command], rfl, rfl⟩

/-- C5: the type-checker is invoked as
`[pyre, check, --source-directory, target, --configuration, config]`, with
an argument vector independent of the exclusion list (exclusions are never
passed as flags); the generated configuration file holds exactly the four
fields of `spec_config_fields` — ignore with each entry individually
quoted, typeshed null, use_buck false, source_directories containing only
the target path — and an empty exclusion list renders as an empty list
literal. -/
theorem C5_pyre_command_and_config (env : Env) (pp : String) (ig ig2 : List String) :
    (pyre_invocation env pp ig).argv =
      ["pyre", "check", "--source-directory", pp, "--configuration",
       pyre_config_path env] ∧
    (pyre_invocation env pp ig).argv = (pyre_invocation env pp ig2).argv ∧
    (pyre_invocation env pp ig).config =
      some (pyre_config_path env, pyre_config_text pp ig) ∧
    pyre_config_text pp ig = spec_render_config (spec_config_fields pp ig) ∧
    pyre_config_text pp [] =
      "\x7b\n  \"ignore\": [],\n  \"typeshed\": null,\n  \"use_buck\": false,\n  \"source_directories\": [\"" ++
        pp ++ "\"]\n\x7d" := by
  refine ⟨rfl, rfl, rfl, ?_, ?_⟩ <;>
    · apply str_ext
      simp [pyre_config_text, spec_render_config, spec_config_fields, join_str,
        data_app, List.append_assoc]

/-- C6: a completed child process is never treated as a failure — whatever
its exit code, the captured standard output is returned verbatim by each
runner; and the whole observable run depends on process outcomes only
through the captured text, so exit codes are never inspected by the
aggregation step. -/
theorem C6_exit_codes_never_inspected (env env2 : Env) (args : Args)
    (pp : String) (ig : List String) (ec : Int) (out err : String) :
    (env.run (flake8_invocation pp ig) = .completed ec out err →
      run_flake8 env pp ig = out) ∧
    (env.run (pylint_invocation pp ig) = .completed ec out err →
      run_pylint env pp ig = out) ∧
    (env.run (pyre_invocation env pp ig) = .completed ec out err →
      run_pyre env pp ig = out) ∧
    (env.isDir = env2.isDir → env.tempDir = env2.tempDir →
      env.writeOk = env2.writeOk →
      (∀ inv, capture (env.run inv) = capture (env2.run inv)) →
      main env args = main env2 args) := by
  refine ⟨?_, ?_, ?_, ?_⟩
  · intro h; simp [run_flake8, h, capture]
  · intro h; simp [run_pylint, h, capture]
  · intro h; simp [run_pyre, h, capture]
  · intro hd htd hw hcap
    have hpyi : pyre_invocation env = pyre_invocation env2 := by
      funext pp2 ig2
      simp [pyre_invocation, pyre_config_path, pyre_config_text, pyre_command, htd]
    simp only [main, hd, hw]
    simp [run_flake8, run_pylint, run_pyre, hcap, hpyi]

theorem C6_witness :
    stubOk.run (flake8_invocation "/proj" []) = .completed 2 "ok\n" "warn\n" ∧
    run_flake8 stubOk "/proj" [] = "ok\n" :=
  ⟨rfl, (C6_exit_codes_never_inspected stubOk stubOk argsValidAll "/proj" []
    2 "ok\n" "warn\n").1 rfl⟩

/-- C7: the rendered report is the concatenation, in order, of one section
per collected (tool, output) entry, each of the exact form
`--- NAME ---` + newline + output + newline + newline with the tool name
uppercased, and nothing else. -/
theorem C7_report_is_concatenation_of_sections (rs : List (String × String)) :
    render_report rs = join_all (rs.map section_text) := by
  suffices h : ∀ l acc, List.foldl
      (fun acc p => acc ++ ("--- " ++ upper p.1 ++ " ---\n" ++ p.2 ++ "\n\n")) acc l =
      acc ++ join_all (l.map section_text) by
    have h0 := h rs ""
    simpa [render_report] using h0
  intro l
  induction l with
  | nil => intro acc; simp [join_all, String.append_empty]
  | cons p ps ih =>
    intro acc
    rw [List.foldl_cons, ih]
    simp [join_all, section_text, String.append_assoc]

/-- C8: when validation passes the exit status is 0 whatever the tools
did; when an output file is given — given in the sense the program tests
it, a non-empty path, since the truthiness check at main.py line 169
treats an empty string like an absent one — the report is delivered to
that file: a write failure changes only the recorded success flag, never
the exit status, and the report is not written to standard output as a
fallback; with no output file (absent, or the falsy empty string) the
report goes to standard output. -/
theorem C8_exit_zero_and_delivery (env : Env) (args : Args)
    (h1 : env.isDir args.project_path = true)
    (h2 : args.dependencies.all (fun d => valid_dependencies.contains d) = true) :
    (main env args).exitCode = 0 ∧
    (∀ p, args.output_file = some p → p ≠ "" →
      (main env args).delivered =
        some (Delivery.file p (env.writeOk p) (render_report (main env args).results)) ∧
      ∀ s, (main env args).delivered ≠ some (Delivery.stdout s)) ∧
    ((args.output_file = none ∨ args.output_file = some "") →
      (main env args).delivered =
        some (Delivery.stdout (render_report (main env args).results))) := by
  rw [main_valid_run env args h1 h2]
  refine ⟨rfl, ?_, ?_⟩
  · intro p hp hne
    refine ⟨by simp [delivery_of, hp, hne], ?_⟩
    intro s
    simp [delivery_of, hp, hne]
  · intro hn
    rcases hn with hn | hn <;> simp [delivery_of, hn]

theorem C8_witness :
    (main stubWriteFail argsOut).exitCode = 0 ∧
    (∀ p, argsOut.output_file = some p → p ≠ "" →
      (main stubWriteFail argsOut).delivered =
        some (Delivery.file p (stubWriteFail.writeOk p)
          (render_report (main stubWriteFail argsOut).results)) ∧
      ∀ s, (main stubWriteFail argsOut).delivered ≠ some (Delivery.stdout s)) ∧
    ((argsOut.output_file = none ∨ argsOut.output_file = some "") →
      (main stubWriteFail argsOut).delivered =
        some (Delivery.stdout (render_report (main stubWriteFail argsOut).results))) :=
  C8_exit_zero_and_delivery stubWriteFail argsOut rfl (by decide)

/-- C10: with an empty tool selection the run passes validation, invokes
no tool, produces the empty report, still delivers it to the chosen
destination — `delivery_of` models the truthiness test at main.py
line 169: a non-empty output path receives the file write, while an
absent or empty-string output path sends the report to standard
output — and exits with status 0. -/
theorem C10_empty_selection (env : Env) (args : Args)
    (h1 : env.isDir args.project_path = true)
    (hdeps : args.dependencies = []) :
    (main env args).exitCode = 0 ∧
    (main env args).invocations = [] ∧
    (main env args).results = [] ∧
    (main env args).report = some "" ∧
    (main env args).delivered = some (delivery_of env args.output_file "") := by
  have h2 : args.dependencies.all (fun d => valid_dependencies.contains d) = true := by
    rw [hdeps]; rfl
  rw [main_valid_run env args h1 h2, hdeps]
  exact ⟨rfl, rfl, rfl, rfl, rfl⟩

theorem C10_witness :
    (main stubOk argsEmptyDeps).exitCode = 0 ∧
    (main stubOk argsEmptyDeps).invocations = [] ∧
    (main stubOk argsEmptyDeps).results = [] ∧
    (main stubOk argsEmptyDeps).report = some "" ∧
    (main stubOk argsEmptyDeps).delivered =
      some (delivery_of stubOk argsEmptyDeps.output_file "") :=
  C10_empty_selection stubOk argsEmptyDeps rfl rfl


theorem parseStrBody_clean : ∀ (e r : List Char), e.all goodChar = true →
    parseStrBody (e ++ '"' :: r) = some r
  | [], r, _ => rfl
  | c :: e, r, h => by
    have hc : goodChar c = true ∧ e.all goodChar = true := by simpa using h
    have hg := hc.1
    simp only [goodChar, Bool.and_eq_true, Bool.not_eq_true',
      decide_eq_false_iff_not] at hg
    obtain ⟨⟨h1, h2⟩, h3⟩ := hg
    simp only [List.cons_append, parseStrBody]
    rw [if_neg h1, if_neg h2, if_neg h3]
    exact parseStrBody_clean e r hc.2

theorem step_value_brace (g : Nat) (rest : List Char) :
    parseValue (g + 1) ('\x7b' :: rest) = parseObjectBody g rest := rfl

theorem step_value_bracket (g : Nat) (rest : List Char) :
    parseValue (g + 1) (' ' :: '[' :: rest) = parseArray g rest := rfl

theorem step_value_null (g : Nat) (rest : List Char) :
    parseValue (g + 1) (' ' :: 'n' :: 'u' :: 'l' :: 'l' :: rest) = some rest := rfl

theorem step_value_false (g : Nat) (rest : List Char) :
    parseValue (g + 1) (' ' :: 'f' :: 'a' :: 'l' :: 's' :: 'e' :: rest) = some rest := rfl

theorem step_objtail_close (g : Nat) :
    parseObjectTail (g + 1) ('\n' :: '\x7d' :: []) = some [] := rfl

theorem step_array_single_string (g : Nat) (e rest : List Char)
    (he : e.all goodChar = true) :
    parseArray (g + 1 + 1) ('"' :: (e ++ '"' :: ']' :: rest)) = some rest := by
  have h0 : parseArray (g + 1 + 1) ('"' :: (e ++ '"' :: ']' :: rest)) =
      (match parseStrBody (e ++ '"' :: ']' :: rest) with
       | none => none
       | some r => parseArrayTail (g + 1) r) := rfl
  rw [h0, parseStrBody_clean e (']' :: rest) he]
  rfl

theorem step_objbody_first (g : Nat) (key rest r2 : List Char)
    (hkey : key.all goodChar = true) (h : parseValue g rest = some r2) :
    parseObjectBody (g + 1)
      ('\n' :: ' ' :: ' ' :: '"' :: (key ++ '"' :: ':' :: rest)) =
      parseObjectTail g r2 := by
  have h0 : parseObjectBody (g + 1)
      ('\n' :: ' ' :: ' ' :: '"' :: (key ++ '"' :: ':' :: rest)) =
      (match parseStrBody (key ++ '"' :: ':' :: rest) with
       | none => none
       | some r =>
         match skipWs r with
         | [] => none
         | d :: cs2 =>
           if d = ':' then
             match parseValue g cs2 with
             | none => none
             | some r2 => parseObjectTail g r2
           else none) := rfl
  rw [h0, parseStrBody_clean key (':' :: rest) hkey]
  have h1 : (match (some (':' :: rest) : Option (List Char)) with
       | none => none
       | some r =>
         match skipWs r with
         | [] => none
         | d :: cs2 =>
           if d = ':' then
             match parseValue g cs2 with
             | none => none
             | some r2 => parseObjectTail g r2
           else none) =
      (match parseValue g rest with
       | none => none
       | some r2 => parseObjectTail g r2) := rfl
  rw [h1, h]

theorem step_objtail_member (g : Nat) (key rest r2 : List Char)
    (hkey : key.all goodChar = true) (h : parseValue g rest = some r2) :
    parseObjectTail (g + 1)
      (',' :: '\n' :: ' ' :: ' ' :: '"' :: (key ++ '"' :: ':' :: rest)) =
      parseObjectTail g r2 := by
  have h0 : parseObjectTail (g + 1)
      (',' :: '\n' :: ' ' :: ' ' :: '"' :: (key ++ '"' :: ':' :: rest)) =
      (match parseStrBody (key ++ '"' :: ':' :: rest) with
       | none => none
       | some r =>
         match skipWs r with
         | [] => none
         | e :: cs2 =>
           if e = ':' then
             match parseValue g cs2 with
             | none => none
             | some r2 => parseObjectTail g r2
           else none) := rfl
  rw [h0, parseStrBody_clean key (':' :: rest) hkey]
  have h1 : (match (some (':' :: rest) : Option (List Char)) with
       | none => none
       | some r =>
         match skipWs r with
         | [] => none
         | e :: cs2 =>
           if e = ':' then
             match parseValue g cs2 with
             | none => none
             | some r2 => parseObjectTail g r2
           else none) =
      (match parseValue g rest with
       | none => none
       | some r2 => parseObjectTail g r2) := rfl
  rw [h1, h]


theorem parseArrayTail_sep : ∀ (l : List String),
    (∀ x ∈ l, x.data.all goodChar = true) →
    ∀ (f : Nat) (r : List Char),
    parseArrayTail (f + (2 * l.length + 1)) (sepChars l ++ ']' :: r) = some r
  | [], _, f, r => rfl
  | x :: xs, h, f, r => by
    have hx : x.data.all goodChar = true := h x (by simp)
    have hxs : ∀ y ∈ xs, y.data.all goodChar = true :=
      fun y hy => h y (List.mem_cons_of_mem x hy)
    have hshape : sepChars (x :: xs) ++ ']' :: r =
        ',' :: ' ' :: '"' :: (x.data ++ '"' :: (sepChars xs ++ ']' :: r)) := by
      simp [sepChars, quotedChars, List.append_assoc]
    have harith : f + (2 * (x :: xs).length + 1) =
        ((f + (2 * xs.length + 1)) + 1) + 1 := by
      simp [List.length_cons]; ring
    rw [hshape, harith]
    have h0 : parseArrayTail (((f + (2 * xs.length + 1)) + 1) + 1)
        (',' :: ' ' :: '"' :: (x.data ++ '"' :: (sepChars xs ++ ']' :: r))) =
        (match parseStrBody (x.data ++ '"' :: (sepChars xs ++ ']' :: r)) with
         | none => none
         | some r2 => parseArrayTail ((f + (2 * xs.length + 1)) + 1) r2) := rfl
    rw [h0, parseStrBody_clean x.data (sepChars xs ++ ']' :: r) hx]
    have h1 : (match (some (sepChars xs ++ ']' :: r) : Option (List Char)) with
         | none => none
         | some r2 => parseArrayTail ((f + (2 * xs.length + 1)) + 1) r2) =
        parseArrayTail ((f + (2 * xs.length + 1)) + 1) (sepChars xs ++ ']' :: r) := rfl
    rw [h1]
    have harith2 : (f + (2 * xs.length + 1)) + 1 = (f + 1) + (2 * xs.length + 1) := by
      ring
    rw [harith2]
    exact parseArrayTail_sep xs hxs (f + 1) r

theorem parseArray_join : ∀ (l : List String),
    (∀ x ∈ l, x.data.all goodChar = true) →
    ∀ (f : Nat) (r : List Char),
    parseArray (f + (2 * l.length + 1)) (joinChars l ++ ']' :: r) = some r
  | [], _, f, r => rfl
  | x :: xs, h, f, r => by
    have hx : x.data.all goodChar = true := h x (by simp)
    have hxs : ∀ y ∈ xs, y.data.all goodChar = true :=
      fun y hy => h y (List.mem_cons_of_mem x hy)
    have hshape : joinChars (x :: xs) ++ ']' :: r =
        '"' :: (x.data ++ '"' :: (sepChars xs ++ ']' :: r)) := by
      simp [joinChars, quotedChars, List.append_assoc]
    have harith : f + (2 * (x :: xs).length + 1) =
        ((f + (2 * xs.length + 1)) + 1) + 1 := by
      simp [List.length_cons]; ring
    rw [hshape, harith]
    have h0 : parseArray (((f + (2 * xs.length + 1)) + 1) + 1)
        ('"' :: (x.data ++ '"' :: (sepChars xs ++ ']' :: r))) =
        (match parseStrBody (x.data ++ '"' :: (sepChars xs ++ ']' :: r)) with
         | none => none
         | some r2 => parseArrayTail ((f + (2 * xs.length + 1)) + 1) r2) := rfl
    rw [h0, parseStrBody_clean x.data (sepChars xs ++ ']' :: r) hx]
    have h1 : (match (some (sepChars xs ++ ']' :: r) : Option (List Char)) with
         | none => none
         | some r2 => parseArrayTail ((f + (2 * xs.length + 1)) + 1) r2) =
        parseArrayTail ((f + (2 * xs.length + 1)) + 1) (sepChars xs ++ ']' :: r) := rfl
    rw [h1]
    have harith2 : (f + (2 * xs.length + 1)) + 1 = (f + 1) + (2 * xs.length + 1) := by
      ring
    rw [harith2]
    exact parseArrayTail_sep xs hxs (f + 1) r

theorem join_quoted_data : ∀ l : List String,
    (join_str ", " (l.map (fun x => "\"" ++ x ++ "\""))).data = joinChars l
  | [] => rfl
  | [x] => by
    simp [join_str, joinChars, quotedChars, sepChars, data_app]
  | x :: y :: ys => by
    have ih := join_quoted_data (y :: ys)
    simp only [List.map_cons, join_str] at ih ⊢
    simp [data_app, ih, joinChars, quotedChars, sepChars, List.append_assoc]


theorem config_data_shape (pp : String) (ig : List String) :
    (pyre_config_text pp ig).data = '\x7b' :: objBody pp ig := by
  simp [pyre_config_text, objBody, mem1, mem2, mem3, srcVal, data_app,
    join_quoted_data, List.append_assoc]

theorem sepChars_length : ∀ l : List String, 2 * l.length ≤ (sepChars l).length
  | [] => by simp [sepChars]
  | x :: xs => by
    have ih := sepChars_length xs
    simp [sepChars, quotedChars]
    omega

theorem joinChars_length : ∀ l : List String, 2 * l.length ≤ (joinChars l).length
  | [] => by simp [joinChars]
  | x :: xs => by
    have ih := sepChars_length xs
    simp [joinChars, quotedChars]
    omega

theorem parse_config (pp : String) (ig : List String)
    (hig : ∀ x ∈ ig, x.data.all goodChar = true)
    (hpp : pp.data.all goodChar = true) (f : Nat) :
    parseValue (f + (2 * ig.length + 8)) ((pyre_config_text pp ig).data) = some [] := by
  rw [config_data_shape pp ig]
  have hsh : f + (2 * ig.length + 8) =
      f + 2 * ig.length + 1 + 1 + 1 + 1 + 1 + 1 + 1 + 1 := by ring
  rw [hsh, step_value_brace]
  have hval1 : parseValue (f + 2 * ig.length + 1 + 1 + 1 + 1 + 1 + 1)
      (' ' :: '[' :: (joinChars ig ++ ']' :: mem1 pp)) = some (mem1 pp) := by
    rw [step_value_bracket]
    have hb : f + 2 * ig.length + 1 + 1 + 1 + 1 + 1 =
        (f + 4) + (2 * ig.length + 1) := by ring
    rw [hb]
    exact parseArray_join ig hig (f + 4) (mem1 pp)
  have hnull : parseValue (f + 2 * ig.length + 1 + 1 + 1 + 1 + 1)
      (' ' :: 'n' :: 'u' :: 'l' :: 'l' :: mem2 pp) = some (mem2 pp) :=
    step_value_null (f + 2 * ig.length + 1 + 1 + 1 + 1) (mem2 pp)
  have hfalse : parseValue (f + 2 * ig.length + 1 + 1 + 1 + 1)
      (' ' :: 'f' :: 'a' :: 'l' :: 's' :: 'e' :: mem3 pp) = some (mem3 pp) :=
    step_value_false (f + 2 * ig.length + 1 + 1 + 1) (mem3 pp)
  have hsrc : parseValue (f + 2 * ig.length + 1 + 1 + 1) (srcVal pp) =
      some ('\n' :: '\x7d' :: []) := by
    simp only [srcVal]
    rw [step_value_bracket]
    exact step_array_single_string (f + 2 * ig.length) pp.data
      ('\n' :: '\x7d' :: []) hpp
  simp only [objBody]
  rw [step_objbody_first (f + 2 * ig.length + 1 + 1 + 1 + 1 + 1 + 1)
    ['i', 'g', 'n', 'o', 'r', 'e'] _ _ (by decide) hval1]
  simp only [mem1]
  rw [step_objtail_member (f + 2 * ig.length + 1 + 1 + 1 + 1 + 1)
    ['t', 'y', 'p', 'e', 's', 'h', 'e', 'd'] _ _ (by decide) hnull]
  simp only [mem2]
  rw [step_objtail_member (f + 2 * ig.length + 1 + 1 + 1 + 1)
    ['u', 's', 'e', '_', 'b', 'u', 'c', 'k'] _ _ (by decide) hfalse]
  simp only [mem3]
  rw [step_objtail_member (f + 2 * ig.length + 1 + 1 + 1)
    ['s', 'o', 'u', 'r', 'c', 'e', '_', 'd', 'i', 'r', 'e', 'c', 't', 'o', 'r', 'i', 'e', 's']
    _ _ (by decide) hsrc]
  exact step_objtail_close (f + 2 * ig.length + 1 + 1)

theorem jsonWF_config (pp : String) (ig : List String)
    (hig : ∀ x ∈ ig, x.data.all goodChar = true)
    (hpp : pp.data.all goodChar = true) :
    jsonWF (pyre_config_text pp ig) = true := by
  have hj := joinChars_length ig
  have hlen : (pyre_config_text pp ig).length = ('\x7b' :: objBody pp ig).length := by
    have h0 : (pyre_config_text pp ig).length = (pyre_config_text pp ig).data.length := rfl
    rw [h0, config_data_shape]
  have hbound : 2 * ig.length + 8 ≤ (pyre_config_text pp ig).length + 1 := by
    rw [hlen]
    simp [objBody, mem1, mem2, mem3, srcVal]
    omega
  obtain ⟨f, hf⟩ : ∃ f, (pyre_config_text pp ig).length + 1 = f + (2 * ig.length + 8) :=
    ⟨(pyre_config_text pp ig).length + 1 - (2 * ig.length + 8), by omega⟩
  simp only [jsonWF]
  rw [hf, parse_config pp ig hig hpp f]
  rfl


/-- C9 counterexample: the claim that the generated configuration document
is well-formed only when no entry and no target path contains a double
quote or backslash is false — with target path `p` and the single ignore
entry `a", "b` (which contains double quotes), the interpolated document is
well-formed JSON (it simply gains an extra ignore entry). -/
theorem C9_counterexample_quote_entry_can_stay_wellformed :
    ¬ (∀ (pp : String) (ig : List String),
        jsonWF (pyre_config_text pp ig) = true →
        pp.data.all noQuoteBackslash = true ∧
        ∀ x ∈ ig, x.data.all noQuoteBackslash = true) := by
  intro h
  have h2 := (h "p" ["a\", \"b"] (by decide)).2 "a\", \"b" (by simp)
  exact absurd h2 (by decide)

/-- C9 (amended): the configuration document is produced by verbatim string
interpolation, so it is guaranteed to be a well-formed structured (JSON)
configuration whenever no ignore entry and no target path contains a double
quote, a backslash, or a control character; and a double quote in an entry
can break well-formedness — a single-double-quote entry yields an
ill-formed document. -/
theorem C9_interpolated_config_wellformedness :
    (∀ (pp : String) (ig : List String),
      (∀ x ∈ ig, x.data.all goodChar = true) →
      pp.data.all goodChar = true →
      jsonWF (pyre_config_text pp ig) = true) ∧
    jsonWF (pyre_config_text "p" ["\""]) = false :=
  ⟨fun pp ig hig hpp => jsonWF_config pp ig hig hpp, by decide⟩

theorem C9_witness :
    jsonWF (pyre_config_text "/proj" ["build", "dist"]) = true :=
  C9_interpolated_config_wellformedness.1 "/proj" ["build", "dist"]
    (by decide) (by decide)

end DeadCode
